import Mathlib

/-!
Verification of the Editor Persistence Coordinator of the Notion-Like-Editor
repository (`src/hooks/use-editor-local-storage.ts`) and of the Image
Lifecycle Tracker (`useImageDeletionMonitor` in the image-upload utility
file), as a shallow embedding.

Modelling conventions:
* JavaScript values flowing through the hook (`any`-typed document content)
  are modelled by the inductive type `Js` below; JS truthiness, `typeof x
  === "object"`, and property lookup are made explicit.
* ISO timestamp strings (`lastModified`, `updatedAt`) are modelled by the
  instant they parse to (`Int`, epoch milliseconds): the code only ever
  compares `new Date(s)` values, and `Date` parsing of the ISO strings the
  code itself writes is order-preserving.
* React refs/state (`lastServerSavedContent`, `isSaving`,
  `hasUnsavedChanges`, `savedContent`) become fields of explicit state
  records; async functions become pure functions from a state and the
  outcome of their network call to a new state plus a trace of observable
  events (network writes, callback invocations).
* The `use-local-storage` hook itself is not among the provided sources;
  the local cache is modelled from the spec's cache contract
  (get/set/remove on one key) as an `Option EditorContent` field.
-/

/-- A JavaScript value, as far as the hook inspects them: `null`,
booleans, numbers, strings, arrays and plain objects. -/
inductive Js where
  | nul : Js
  | bool : Bool → Js
  | num : Int → Js
  | str : String → Js
  | arr : List Js → Js
  | obj : List (String × Js) → Js

-- Structural (strict, `===`-style) equality on `Js`, mutually with its
-- list instances, together with proofs making it a lawful `BEq`.
mutual

def beqJs : Js → Js → Bool
  | .nul, .nul => true
  | .bool a, .bool b => a == b
  | .num a, .num b => a == b
  | .str a, .str b => a == b
  | .arr xs, .arr ys => beqJsItems xs ys
  | .obj fs, .obj gs => beqJsFields fs gs
  | _, _ => false

def beqJsItems : List Js → List Js → Bool
  | [], [] => true
  | x :: xs, y :: ys => beqJs x y && beqJsItems xs ys
  | _, _ => false

def beqJsFields : List (String × Js) → List (String × Js) → Bool
  | [], [] => true
  | (k, v) :: fs, (l, w) :: gs => k == l && beqJs v w && beqJsFields fs gs
  | _, _ => false

end

instance : BEq Js := ⟨beqJs⟩

mutual

theorem beqJs_rfl : ∀ a : Js, beqJs a a = true
  | .nul => rfl
  | .bool a => by simp [beqJs]
  | .num a => by simp [beqJs]
  | .str a => by simp [beqJs]
  | .arr xs => by simpa [beqJs] using beqJsItems_rfl xs
  | .obj fs => by simpa [beqJs] using beqJsFields_rfl fs

theorem beqJsItems_rfl : ∀ xs : List Js, beqJsItems xs xs = true
  | [] => rfl
  | x :: xs => by simp [beqJsItems]; exact ⟨beqJs_rfl x, beqJsItems_rfl xs⟩

theorem beqJsFields_rfl : ∀ fs : List (String × Js), beqJsFields fs fs = true
  | [] => rfl
  | (k, v) :: fs => by
      simp [beqJsFields]
      exact ⟨beqJs_rfl v, beqJsFields_rfl fs⟩

end

mutual

theorem beqJs_eq : ∀ a b : Js, beqJs a b = true → a = b
  | .nul, .nul, _ => rfl
  | .bool a, .bool b, h => by simp [beqJs] at h; rw [h]
  | .num a, .num b, h => by simp [beqJs] at h; rw [h]
  | .str a, .str b, h => by simp [beqJs] at h; rw [h]
  | .arr xs, .arr ys, h => by
      rw [beqJsItems_eq xs ys (by simpa [beqJs] using h)]
  | .obj fs, .obj gs, h => by
      rw [beqJsFields_eq fs gs (by simpa [beqJs] using h)]
  | .nul, .bool _, h | .nul, .num _, h | .nul, .str _, h
  | .nul, .arr _, h | .nul, .obj _, h => by simp [beqJs] at h
  | .bool _, .nul, h | .bool _, .num _, h | .bool _, .str _, h
  | .bool _, .arr _, h | .bool _, .obj _, h => by simp [beqJs] at h
  | .num _, .nul, h | .num _, .bool _, h | .num _, .str _, h
  | .num _, .arr _, h | .num _, .obj _, h => by simp [beqJs] at h
  | .str _, .nul, h | .str _, .bool _, h | .str _, .num _, h
  | .str _, .arr _, h | .str _, .obj _, h => by simp [beqJs] at h
  | .arr _, .nul, h | .arr _, .bool _, h | .arr _, .num _, h
  | .arr _, .str _, h | .arr _, .obj _, h => by simp [beqJs] at h
  | .obj _, .nul, h | .obj _, .bool _, h | .obj _, .num _, h
  | .obj _, .str _, h | .obj _, .arr _, h => by simp [beqJs] at h

theorem beqJsItems_eq : ∀ xs ys : List Js, beqJsItems xs ys = true → xs = ys
  | [], [], _ => rfl
  | x :: xs, y :: ys, h => by
      simp [beqJsItems] at h
      rw [beqJs_eq x y h.1, beqJsItems_eq xs ys h.2]
  | [], _ :: _, h => by simp [beqJsItems] at h
  | _ :: _, [], h => by simp [beqJsItems] at h

theorem beqJsFields_eq : ∀ fs gs : List (String × Js), beqJsFields fs gs = true → fs = gs
  | [], [], _ => rfl
  | (k, v) :: fs, (l, w) :: gs, h => by
      simp [beqJsFields] at h
      rw [h.1.1, beqJs_eq v w h.1.2, beqJsFields_eq fs gs h.2]
  | [], _ :: _, h => by simp [beqJsFields] at h
  | _ :: _, [], h => by simp [beqJsFields] at h

end

instance : LawfulBEq Js where
  eq_of_beq h := beqJs_eq _ _ h
  rfl := beqJs_rfl _

instance : DecidableEq Js := fun a b =>
  decidable_of_iff (beqJs a b = true) ⟨beqJs_eq a b, fun h => h ▸ beqJs_rfl a⟩

/-- JS truthiness of a value (`!x` in the source is `¬ truthy x`). -/
def truthy : Js → Bool
  | .nul => false
  | .bool b => b
  | .num n => n != 0
  | .str s => s != ""
  | .arr _ => true
  | .obj _ => true

/-- `typeof x === "object"` (true for objects, arrays and `null`). -/
def isObjectType : Js → Bool
  | .nul => true
  | .arr _ => true
  | .obj _ => true
  | _ => false

/-- Property access `x.f`: `none` models JS `undefined`. Only plain
objects carry the properties the hook reads. -/
def getField : Js → String → Option Js
  | .obj fields, k => fields.lookup k
  | _, _ => .none

/-- Truthiness of a possibly-absent value (`undefined` is falsy). -/
def truthyOpt : Option Js → Bool
  | .none => false
  | .some v => truthy v

-- `JSON.stringify`, restricted to the shapes `Js` can hold (no escaping
-- of quotes inside strings; the hook only ever compares stringified
-- values for equality).
mutual

def serialize : Js → String
  | .nul => "null"
  | .bool true => "true"
  | .bool false => "false"
  | .num n => toString n
  | .str s => "\"" ++ s ++ "\""
  | .arr xs => "[" ++ serializeItems xs ++ "]"
  | .obj fs => "\x7b" ++ serializeFields fs ++ "\x7d"

def serializeItems : List Js → String
  | [] => ""
  | x :: xs => serialize x ++ (if xs.isEmpty then "" else ",") ++ serializeItems xs

def serializeFields : List (String × Js) → String
  | [] => ""
  | (k, v) :: fs =>
      "\"" ++ k ++ "\":" ++ serialize v ++ (if fs.isEmpty then "" else ",") ++ serializeFields fs

end

/-- `JSON.stringify` of a possibly-absent value. -/
def serializeOpt : Option Js → Option String :=
  Option.map serialize

/-- The `EditorContent` record of the hook: `content: any` (possibly
absent), `lastModified` timestamp, optional `title`. -/
structure EditorContent where
  content : Option Js
  lastModified : Int
  title : Option String

/-- The `ArticleMetadata` record returned by the remote draft fetch; the
hook reads `content`, `updatedAt` and `title`. -/
structure ArticleMetadata where
  id : String
  title : String
  content : Option Js
  createdAt : Int
  updatedAt : Int
  createdBy : String

/-- `isValidContent` from the source: reject falsy values, non-objects,
objects with a falsy/absent `type`; accept `type === "doc"` or any object
whose `content` property is present (`!== undefined`). -/
def isValidContent (content : Option Js) : Bool :=
  match content with
  | .none => false
  | .some c =>
    if ¬ truthy c then false
    else if ¬ isObjectType c then false
    else
      match getField c "type" with
      | .none => false
      | .some t =>
        if ¬ truthy t then false
        else t == .str "doc" || (getField c "content").isSome

/-- The `source` tag returned by `getMostRecentContent`
(`"local" | "server" | "none"` in the source; `local` is a Lean keyword,
hence `localCache`). -/
inductive Source where
  | localCache : Source
  | server : Source
  | noneSrc : Source
  deriving DecidableEq, Repr

/-- The `EditorContent` built from server data when the server side wins. -/
def serverRecord (sd : ArticleMetadata) : EditorContent :=
  { content := sd.content, lastModified := sd.updatedAt, title := .some sd.title }

/-- `getMostRecentContent` from the source, line by line:
if `!serverData || !serverData.content`, fall back to a valid local record
or nothing; if the local record is absent or fails `isValidContent`, use
the server record (whose content is only checked for truthiness, never for
structural validity); otherwise compare the parsed dates and let the
server win exactly when its date is strictly later. -/
def getMostRecentContent (localContent : Option EditorContent)
    (serverData : Option ArticleMetadata) : Source × Option EditorContent :=
  match serverData with
  | .none =>
    match localContent with
    | .some lc =>
      if isValidContent lc.content then (.localCache, .some lc) else (.noneSrc, .none)
    | .none => (.noneSrc, .none)
  | .some sd =>
    if ¬ truthyOpt sd.content then
      match localContent with
      | .some lc =>
        if isValidContent lc.content then (.localCache, .some lc) else (.noneSrc, .none)
      | .none => (.noneSrc, .none)
    else
      match localContent with
      | .none => (.server, .some (serverRecord sd))
      | .some lc =>
        if ¬ isValidContent lc.content then (.server, .some (serverRecord sd))
        else if sd.updatedAt > lc.lastModified then (.server, .some (serverRecord sd))
        else (.localCache, .some lc)

/-- The document a cleared TipTap editor holds (`editor.commands.clearContent()`
resets to a `doc` with one empty paragraph). -/
def emptyDoc : Js :=
  Js.obj [("type", Js.str "doc"),
          ("content", Js.arr [Js.obj [("type", Js.str "paragraph")]])]

/-- The coordinator's state: the editor's current document (`editor.getJSON()`,
with `emptyDoc` after a clear), the local cache entry for the article's storage
key (modelled from the spec's cache contract, `use-local-storage` not being
among the sources), the `lastServerSavedContent` ref, the `hasUnsavedChanges`
state and the `isSaving` ref. -/
structure Session where
  editorDoc : Js
  cache : Option EditorContent
  lastServerSavedContent : Option String
  hasUnsavedChanges : Bool
  isSaving : Bool

/-- Observable events of one coordinator operation: a draft POST carrying the
serialized content, the save callbacks, and the final-submission POST carrying
the serialized JSON rendering, the HTML rendering and the comments. -/
inductive Ev where
  | draftWrite : String → Ev
  | saveSuccessCb : Ev
  | saveErrorCb : Ev
  | submitPost : String → String → String → Ev
  deriving DecidableEq, Repr

/-- `saveToServer` from the source, as a function of the guards (`editor`
non-null, `serverSaveOptions?.enabled`), the network outcome of the POST,
and the state. Returns the state after the call completes (the `finally`
clause has run) together with the trace of network writes and callback
invocations; the `catch` block makes the function total, no exception
reaches the caller. -/
def saveToServer (hasEditor enabled netOk : Bool) (s : Session) : Session × List Ev :=
  if !hasEditor || !enabled || s.isSaving then (s, [])
  else if .some (serialize s.editorDoc) = s.lastServerSavedContent then (s, [])
  else if netOk then
    ({ s with lastServerSavedContent := .some (serialize s.editorDoc),
              hasUnsavedChanges := false, isSaving := false },
     [.draftWrite (serialize s.editorDoc), .saveSuccessCb])
  else
    ({ s with isSaving := false },
     [.draftWrite (serialize s.editorDoc), .saveErrorCb])

/-- Modelled from the spec: the `set` operation of the `use-local-storage`
cache (that hook's file is not among the sources). Per the spec's failure
semantics, a failing cache write (e.g. storage quota) is caught and leaves
the prior state untouched. -/
def cacheSet (ok : Bool) (v : Option EditorContent) (prev : Option EditorContent) :
    Option EditorContent :=
  if ok then v else prev

/-- `saveContent` (the local flush) from the source: requires an editor,
validates `editor.getJSON()` with `isValidContent` (skipping the write when
invalid), then overwrites the cache entry with the content and a fresh
`lastModified` stamp (`now`), with no change-detection; the `try/catch`
swallows storage errors. -/
def saveContent (hasEditor : Bool) (now : Int) (storageOk : Bool) (s : Session) : Session :=
  if !hasEditor then s
  else if !(isValidContent (.some s.editorDoc)) then s
  else
    let contentData : EditorContent :=
      { content := .some s.editorDoc, lastModified := now, title := .none }
    { s with cache := cacheSet storageOk (.some contentData) s.cache }

/-- `clearContent` from the source: `setSavedContent(null)` (under the spec's
cache contract the entry no longer yields a record), reset the editor when
present, null the `lastServerSavedContent` ref, clear the dirty flag. -/
def clearContent (hasEditor : Bool) (s : Session) : Session :=
  { s with cache := .none,
           editorDoc := if hasEditor then emptyDoc else s.editorDoc,
           lastServerSavedContent := .none,
           hasUnsavedChanges := false }

/-- `submitContent` from the source: throws when the editor is null or the
content invalid, posts the JSON and HTML renderings (`html` stands for
`editor.getHTML()`) with `comment || ""`, and on success sets the
`lastServerSavedContent` ref to the stringified JSON and clears the dirty
flag; a failed POST is rethrown with the state unchanged. -/
def submitContent (hasEditor : Bool) (html : String) (comment : Option String)
    (netOk : Bool) (s : Session) : Except String (Session × List Ev) :=
  if !hasEditor then .error "Editor not available"
  else if !(isValidContent (.some s.editorDoc)) then
    .error "Invalid content cannot be submitted"
  else if netOk then
    .ok ({ s with lastServerSavedContent := .some (serialize s.editorDoc),
                  hasUnsavedChanges := false },
         [.submitPost (serialize s.editorDoc) html (comment.getD "")])
  else .error "Network error"

/-- `loadInitialContent` from the source, for the editor-present mount: given
the cache entry and the outcome of the remote fetch (`none` when remote
fetching is disabled or the fetch failed), pick the winner via
`getMostRecentContent`; a server winner is written to the cache first; the
winner's content is set in the editor and its stringification becomes the
last-confirmed marker; with no winner the editor is cleared; either way the
dirty flag ends cleared and nothing is in flight. -/
def loadInitialContent (cache : Option EditorContent)
    (serverData : Option ArticleMetadata) : Session :=
  match getMostRecentContent cache serverData with
  | (src, .some c) =>
    { editorDoc := c.content.getD emptyDoc,
      cache := if src = Source.server then .some c else cache,
      lastServerSavedContent := serializeOpt c.content,
      hasUnsavedChanges := false, isSaving := false }
  | (_, .none) =>
    { editorDoc := emptyDoc, cache := cache, lastServerSavedContent := .none,
      hasUnsavedChanges := false, isSaving := false }

/-- A value looked up in an association list is structurally smaller than
the list (termination measure for the document traversal below). -/
theorem sizeOf_lookup_lt {fs : List (String × Js)} {k : String} {v : Js}
    (h : fs.lookup k = some v) : sizeOf v < sizeOf fs := by
  induction fs with
  | nil => simp [List.lookup] at h
  | cons p fs ih =>
    obtain ⟨a, b⟩ := p
    rw [List.lookup] at h
    by_cases hk : k == a
    · simp [hk] at h
      subst h
      simp
      omega
    · simp [hk] at h
      have := ih h
      simp
      omega

/-- A property of an object is structurally smaller than the object. -/
theorem sizeOf_getField_lt {node : Js} {k : String} {v : Js}
    (h : getField node k = some v) : sizeOf v < sizeOf node := by
  cases node <;> simp [getField] at h
  case obj fs =>
    have := sizeOf_lookup_lt h
    simp
    omega

/-- The per-node body of `getImagesFromDoc` in the image monitor: when
`node.type.name` is `image` or `imageUpload` and `node.attrs.src` is
truthy, that `src` is collected. -/
def nodeImageSrc (node : Js) : List Js :=
  if (match getField node "type" with
      | .some t => t == Js.str "image" || t == Js.str "imageUpload"
      | .none => false) then
    match getField node "attrs" with
    | .some attrs =>
      match getField attrs "src" with
      | .some src => if truthy src then [src] else []
      | .none => []
    | .none => []
  else []

-- `getImagesFromDoc` of `useImageDeletionMonitor`:
-- `editor.state.doc.descendants` visits every node of the document tree
-- (a node's children being its `content` sequence) and the callback
-- pushes the `src` of every image node.
mutual

def getImagesFromDoc (node : Js) : List Js :=
  nodeImageSrc node ++
    (match h : getField node "content" with
     | .some (.arr xs) => getImagesList xs
     | _ => [])
termination_by sizeOf node
decreasing_by
  have := sizeOf_getField_lt h
  simp at this
  omega

def getImagesList : List Js → List Js
  | [] => []
  | x :: xs => getImagesFromDoc x ++ getImagesList xs
termination_by xs => sizeOf xs

end

/-- The monitor's closure state: the `previousImages` snapshot. -/
structure MonitorState where
  previousImages : List Js

/-- `handleUpdate` of `useImageDeletionMonitor`: extract the current image
list, filter the previous snapshot down to the references no longer
present (`!currentImages.includes(img)`), invoke the deletion callback on
each of those (the returned list, in invocation order), and replace the
snapshot with the current list. -/
def monitorHandleUpdate (st : MonitorState) (doc : Js) : List Js × MonitorState :=
  let currentImages := getImagesFromDoc doc
  let deletedImages := st.previousImages.filter (fun img => !(currentImages.contains img))
  (deletedImages, { previousImages := currentImages })

/-- The coordinator's remote-save lifecycle as a small-step machine, for
the in-flight invariant. `inflight` counts the network writes started but
not yet completed. A `start` step is the synchronous prefix of
`saveToServer` up to and including `isSaving.current = true` (the guard
check and the flag assignment run atomically on the single JS thread: no
`await` separates them); the `finish` steps are the continuation after the
awaited POST, ending with the `finally` clause. `skip` is a call that
returns early (editor null, saving disabled, already saving, or content
unchanged). `edit`, `clear` and `submit` are the other operations'
touches on these fields; none of them starts or ends a network write. -/
structure SaveMachine where
  isSaving : Bool
  inflight : Nat
  lastServerSavedContent : Option String
  hasUnsavedChanges : Bool

/-- The transitions of the remote-save lifecycle. -/
inductive SaveStep : SaveMachine → SaveMachine → Prop where
  | start (m : SaveMachine) (doc : Js) :
      m.isSaving = false →
      .some (serialize doc) ≠ m.lastServerSavedContent →
      SaveStep m { m with isSaving := true, inflight := m.inflight + 1 }
  | skip (m : SaveMachine) : SaveStep m m
  | finishOk (m : SaveMachine) (c : String) :
      m.isSaving = true →
      SaveStep m { isSaving := false, inflight := m.inflight - 1,
                   lastServerSavedContent := .some c, hasUnsavedChanges := false }
  | finishErr (m : SaveMachine) :
      m.isSaving = true →
      SaveStep m { m with isSaving := false, inflight := m.inflight - 1 }
  | edit (m : SaveMachine) : SaveStep m { m with hasUnsavedChanges := true }
  | clear (m : SaveMachine) :
      SaveStep m { m with lastServerSavedContent := .none, hasUnsavedChanges := false }
  | submitOk (m : SaveMachine) (c : String) :
      SaveStep m { m with lastServerSavedContent := .some c, hasUnsavedChanges := false }

/-- The state at mount: nothing in flight, no confirmed payload. -/
def saveMachineInit : SaveMachine :=
  { isSaving := false, inflight := 0, lastServerSavedContent := .none,
    hasUnsavedChanges := false }

/-- The states the coordinator can reach from mount. -/
def SaveReachable (m : SaveMachine) : Prop :=
  Relation.ReflTransGen SaveStep saveMachineInit m

-- Concrete values used by witnesses and counterexamples.

/-- A structurally valid TipTap document. -/
def docA : Js := Js.obj [("type", Js.str "doc"), ("content", Js.arr [])]

/-- Another structurally valid, non-empty TipTap document. -/
def docB : Js :=
  Js.obj [("type", Js.str "doc"),
          ("content", Js.arr [Js.obj [("type", Js.str "heading")]])]

/-- A truthy object that fails `isValidContent` (no `type` property). -/
def badContent : Js := Js.obj [("foo", Js.num 1)]

/-- A valid local cache record stamped at instant 0. -/
def lcA : EditorContent := { content := .some docA, lastModified := 0, title := .none }

/-- Server data whose content is truthy but structurally invalid, stamped
later than `lcA`. -/
def sdBad : ArticleMetadata :=
  { id := "a1", title := "t", content := .some badContent, createdAt := 0,
    updatedAt := 5, createdBy := "u" }

/-- Valid server data stamped later than `lcA`. -/
def sdB : ArticleMetadata :=
  { id := "a1", title := "t", content := .some docB, createdAt := 0,
    updatedAt := 5, createdBy := "u" }

/-- Valid server data stamped at the same instant as `lcA`. -/
def sdTie : ArticleMetadata :=
  { id := "a1", title := "t", content := .some docB, createdAt := 0,
    updatedAt := 0, createdBy := "u" }

/-- The winner-selection rule as amended: the local candidate is usable
when it passes `isValidContent`; the remote candidate is usable as soon as
its `content` field is present and truthy (no structural validation is
applied to it); if only one candidate is usable it wins, if both the
remote wins exactly when its timestamp is strictly later, if neither the
result is empty. -/
def pickWinnerAmended (localContent : Option EditorContent)
    (serverData : Option ArticleMetadata) : Source × Option EditorContent :=
  match localContent, serverData with
  | .none, .none => (.noneSrc, .none)
  | .some lc, .none =>
      if isValidContent lc.content then (.localCache, .some lc) else (.noneSrc, .none)
  | .none, .some sd =>
      if truthyOpt sd.content then (.server, .some (serverRecord sd)) else (.noneSrc, .none)
  | .some lc, .some sd =>
      match isValidContent lc.content, truthyOpt sd.content with
      | false, false => (.noneSrc, .none)
      | true, false => (.localCache, .some lc)
      | false, true => (.server, .some (serverRecord sd))
      | true, true =>
          if sd.updatedAt > lc.lastModified then (.server, .some (serverRecord sd))
          else (.localCache, .some lc)

/-- C1, counterexample: with a structurally valid local record and a remote
record whose content is truthy but structurally invalid and stamped later,
the code picks the remote record — the claim says the only structurally
valid candidate (the local one) is used. -/
theorem getMostRecentContent_validity_counterexample :
    isValidContent lcA.content = true ∧
    isValidContent sdBad.content = false ∧
    getMostRecentContent (.some lcA) (.some sdBad) =
      (Source.server, .some (serverRecord sdBad)) :=
  ⟨rfl, rfl, rfl⟩

/-- C1 (amended): the initial-load winner selection equals the amended
rule: structural validation applies to the local candidate only, the
remote candidate counts as valid when its content is present and truthy;
with that notion, a single usable candidate wins, with both the later
timestamp wins, with neither the result is empty. In particular only a
usable local record yields that record and only a usable remote record
yields that record. -/
theorem getMostRecentContent_eq_pickWinnerAmended
    (lc : Option EditorContent) (sd : Option ArticleMetadata) :
    getMostRecentContent lc sd = pickWinnerAmended lc sd := by
  cases sd with
  | none =>
    cases lc with
    | none => rfl
    | some lc =>
      by_cases hl : isValidContent lc.content <;>
        simp [getMostRecentContent, pickWinnerAmended, hl]
  | some sd =>
    by_cases hs : truthyOpt sd.content
    · cases lc with
      | none => simp [getMostRecentContent, pickWinnerAmended, hs]
      | some lc =>
        by_cases hl : isValidContent lc.content
        · by_cases hd : sd.updatedAt > lc.lastModified <;>
            simp [getMostRecentContent, pickWinnerAmended, hs, hl, hd]
        · simp [getMostRecentContent, pickWinnerAmended, hs, hl]
    · cases lc with
      | none => simp [getMostRecentContent, pickWinnerAmended, hs]
      | some lc =>
        by_cases hl : isValidContent lc.content <;>
          simp [getMostRecentContent, pickWinnerAmended, hs, hl]

/-- C10: when both candidates are usable and the remote timestamp parses to
the same instant as the local one, the local record wins (the remote wins
only on a strictly later timestamp). -/
theorem getMostRecentContent_equal_timestamps_local
    (lc : EditorContent) (sd : ArticleMetadata)
    (hl : isValidContent lc.content = true) (hs : truthyOpt sd.content = true)
    (ht : sd.updatedAt = lc.lastModified) :
    getMostRecentContent (.some lc) (.some sd) = (Source.localCache, .some lc) := by
  simp [getMostRecentContent, hl, hs, ht]

/-- C10, witness: concrete valid records with equal timestamps; the local
one wins. -/
theorem getMostRecentContent_equal_timestamps_local_witness :
    isValidContent lcA.content = true ∧ truthyOpt sdTie.content = true ∧
    sdTie.updatedAt = lcA.lastModified ∧
    getMostRecentContent (.some lcA) (.some sdTie) = (Source.localCache, .some lcA) :=
  ⟨rfl, rfl, rfl, getMostRecentContent_equal_timestamps_local lcA sdTie rfl rfl rfl⟩

/-- The state after the mount-time load examples below: content `docA`
confirmed remotely, nothing dirty. -/
def sSaved : Session :=
  { editorDoc := docA, cache := .none,
    lastServerSavedContent := .some (serialize docA),
    hasUnsavedChanges := false, isSaving := false }

/-- A state holding valid content `docA` with unsaved changes and no
confirmed remote payload. -/
def sDirty : Session :=
  { editorDoc := docA, cache := .none, lastServerSavedContent := .none,
    hasUnsavedChanges := true, isSaving := false }

/-- C2: whenever the serialized current editor content equals the last
successfully confirmed remote payload, `saveToServer` returns with no
network write, no callback, and the state (dirty flag, marker, in-flight
flag, cache, editor) unchanged. -/
theorem saveToServer_unchanged_noop (hasEditor enabled netOk : Bool) (s : Session)
    (h : .some (serialize s.editorDoc) = s.lastServerSavedContent) :
    saveToServer hasEditor enabled netOk s = (s, []) := by
  unfold saveToServer
  by_cases hg : (!hasEditor || !enabled || s.isSaving) = true
  · simp [hg]
  · simp [hg, h]

/-- C2, witness: with the marker holding exactly the serialization of the
current document, the call is a no-op. -/
theorem saveToServer_unchanged_noop_witness :
    saveToServer true true true sSaved = (sSaved, []) :=
  saveToServer_unchanged_noop true true true sSaved rfl

/-- C5: every `saveToServer` call that actually performs the network write
(a `draftWrite` event occurs) ends with the in-flight flag cleared and the
cache and editor untouched; the payload written is the serialized current
content; on success the marker becomes exactly that payload, the dirty
flag is cleared and the success callback runs; on failure the dirty flag
and the marker are left unchanged and the error callback runs. The
function being total models the `try/catch`: no exception reaches the
caller. -/
theorem saveToServer_write_outcome (hasEditor enabled netOk : Bool)
    (s s2 : Session) (evs : List Ev) (c : String)
    (hrun : saveToServer hasEditor enabled netOk s = (s2, evs))
    (hw : Ev.draftWrite c ∈ evs) :
    s2.isSaving = false ∧ s2.cache = s.cache ∧ s2.editorDoc = s.editorDoc ∧
    c = serialize s.editorDoc ∧
    (netOk = true → s2.lastServerSavedContent = .some c ∧
      s2.hasUnsavedChanges = false ∧ Ev.saveSuccessCb ∈ evs) ∧
    (netOk = false → s2.hasUnsavedChanges = s.hasUnsavedChanges ∧
      s2.lastServerSavedContent = s.lastServerSavedContent ∧ Ev.saveErrorCb ∈ evs) := by
  unfold saveToServer at hrun
  split at hrun
  · injection hrun with h1 h2
    subst h1; subst h2
    simp at hw
  · split at hrun
    · injection hrun with h1 h2
      subst h1; subst h2
      simp at hw
    · split at hrun
      · next hok =>
        injection hrun with h1 h2
        subst h1; subst h2
        simp at hw
        subst hw
        simp [hok]
      · next hok =>
        injection hrun with h1 h2
        subst h1; subst h2
        simp at hw
        subst hw
        simp at hok
        simp [hok]

/-- The state `sDirty` reaches after a successful remote write of `docA`. -/
def sAfterSave : Session :=
  { editorDoc := docA, cache := .none,
    lastServerSavedContent := .some (serialize docA),
    hasUnsavedChanges := false, isSaving := false }

/-- C5, witness: a successful write from `sDirty` confirms the payload,
clears the dirty flag, fires the success callback, and leaves nothing in
flight. -/
theorem saveToServer_write_outcome_witness :
    sAfterSave.isSaving = false ∧ sAfterSave.cache = sDirty.cache ∧
    sAfterSave.editorDoc = sDirty.editorDoc ∧
    serialize docA = serialize sDirty.editorDoc ∧
    (true = true → sAfterSave.lastServerSavedContent = .some (serialize docA) ∧
      sAfterSave.hasUnsavedChanges = false ∧
      Ev.saveSuccessCb ∈ [Ev.draftWrite (serialize docA), Ev.saveSuccessCb]) ∧
    (true = false → sAfterSave.hasUnsavedChanges = sDirty.hasUnsavedChanges ∧
      sAfterSave.lastServerSavedContent = sDirty.lastServerSavedContent ∧
      Ev.saveErrorCb ∈ [Ev.draftWrite (serialize docA), Ev.saveSuccessCb]) :=
  saveToServer_write_outcome true true true sDirty sAfterSave
    [Ev.draftWrite (serialize docA), Ev.saveSuccessCb] (serialize docA) rfl
    (List.Mem.head _)

/-- C4: whenever the initial-load winner comes from the server, the winner
record is persisted to the local cache, its content is set in the editor,
its stringification becomes the confirmed-remote marker, and the dirty
flag ends cleared. -/
theorem loadInitialContent_server_winner (cache : Option EditorContent)
    (sd : Option ArticleMetadata) (c : EditorContent)
    (h : getMostRecentContent cache sd = (Source.server, .some c)) :
    loadInitialContent cache sd =
      { editorDoc := c.content.getD emptyDoc, cache := .some c,
        lastServerSavedContent := serializeOpt c.content,
        hasUnsavedChanges := false, isSaving := false } := by
  unfold loadInitialContent
  rw [h]
  simp

/-- C4, witness: local holds content `docA` stamped 0, remote returns
content `docB` stamped 5 (both usable, remote strictly later): the editor
is loaded with `docB` and the cache is overwritten with the remote
record. -/
theorem loadInitialContent_server_winner_witness :
    loadInitialContent (.some lcA) (.some sdB) =
      { editorDoc := (serverRecord sdB).content.getD emptyDoc,
        cache := .some (serverRecord sdB),
        lastServerSavedContent := serializeOpt (serverRecord sdB).content,
        hasUnsavedChanges := false, isSaving := false } :=
  loadInitialContent_server_winner (.some lcA) (.some sdB) (serverRecord sdB) rfl

/-- The inductive invariant tying the in-flight count to the `isSaving`
flag. -/
def saveInv (m : SaveMachine) : Prop :=
  m.inflight = if m.isSaving then 1 else 0

/-- Every transition of the remote-save lifecycle preserves the
invariant. -/
theorem saveStep_preserves_inv {m m2 : SaveMachine}
    (h : SaveStep m m2) (hinv : saveInv m) : saveInv m2 := by
  cases h with
  | start doc hsav hne =>
    simp [saveInv, hsav] at hinv ⊢
    omega
  | skip => exact hinv
  | finishOk c hsav =>
    simp [saveInv, hsav] at hinv ⊢
    omega
  | finishErr hsav =>
    simp [saveInv, hsav] at hinv ⊢
    omega
  | edit => simpa [saveInv] using hinv
  | clear => simpa [saveInv] using hinv
  | submitOk c => simpa [saveInv] using hinv

/-- C3: in every state the coordinator can reach from mount, at most one
remote save is in flight: the synchronous `isSaving` guard-and-set prefix
of `saveToServer` (shared by the debounced path and `manualSave`) never
starts a second network write while one is pending. -/
theorem saveReachable_at_most_one_inflight (m : SaveMachine)
    (h : SaveReachable m) : m.inflight ≤ 1 := by
  have hr : Relation.ReflTransGen SaveStep saveMachineInit m := h
  clear h
  have hinv : saveInv m := by
    induction hr with
    | refl => simp [saveInv, saveMachineInit]
    | tail _ hstep ih => exact saveStep_preserves_inv hstep ih
  rw [hinv]
  cases m.isSaving <;> simp

/-- C3, witness: the state reached by starting one save from mount has one
write in flight, within the bound. -/
theorem saveReachable_at_most_one_inflight_witness :
    ({ saveMachineInit with isSaving := true, inflight := saveMachineInit.inflight + 1 } : SaveMachine).inflight ≤ 1 :=
  saveReachable_at_most_one_inflight _
    (Relation.ReflTransGen.single
      (SaveStep.start saveMachineInit docA rfl (by simp [saveMachineInit])))

/-- C6, counterexample: submitting from a dirty state with an empty
marker succeeds and does modify the draft coordination state: the dirty
flag is cleared and the last-confirmed-remote marker is set to the
serialized submitted content, contrary to the claim that submit leaves
both untouched. -/
theorem submitContent_modifies_draft_state :
    sDirty.hasUnsavedChanges = true ∧ sDirty.lastServerSavedContent = .none ∧
    submitContent true "<p>a</p>" .none true sDirty =
      .ok ({ sDirty with lastServerSavedContent := .some (serialize docA),
                         hasUnsavedChanges := false },
           [Ev.submitPost (serialize docA) "<p>a</p>" ""]) :=
  ⟨rfl, rfl, rfl⟩

/-- C6 (amended): submit is a distinct one-shot action that posts the
structured (JSON) and flattened (HTML) renderings with the comments, and
it leaves the cache, the editor content and the in-flight flag untouched —
but it is not independent of the draft coordination state: on success it
sets the last-confirmed-remote marker to the serialized JSON just posted
and clears the draft dirty flag. -/
theorem submitContent_success_spec (html : String) (comment : Option String)
    (s : Session) (h : isValidContent (.some s.editorDoc) = true) :
    submitContent true html comment true s =
      .ok ({ s with lastServerSavedContent := .some (serialize s.editorDoc),
                    hasUnsavedChanges := false },
           [Ev.submitPost (serialize s.editorDoc) html (comment.getD "")]) := by
  simp [submitContent, h]

/-- C6 (amended), witness: a concrete successful submission from
`sDirty`. -/
theorem submitContent_success_spec_witness :
    submitContent true "<p>a</p>" .none true sDirty =
      .ok ({ sDirty with lastServerSavedContent := .some (serialize sDirty.editorDoc),
                         hasUnsavedChanges := false },
           [Ev.submitPost (serialize sDirty.editorDoc) "<p>a</p>" ""]) :=
  submitContent_success_spec "<p>a</p>" .none sDirty rfl

/-- C7, counterexample: after `clearContent`, a reload whose remote fetch
still returns a draft (the clear never deletes the remote copy) loads that
draft into the editor and recreates the local cache entry — not the empty
document and absent entry the claim's consequence promises. -/
theorem clearContent_reload_counterexample :
    (clearContent true sDirty).cache = .none ∧
    (loadInitialContent (clearContent true sDirty).cache (.some sdB)).editorDoc = docB ∧
    docB ≠ emptyDoc ∧
    (loadInitialContent (clearContent true sDirty).cache (.some sdB)).cache =
      .some (serverRecord sdB) :=
  ⟨rfl, rfl, by decide, rfl⟩

/-- C7 (amended): `clearContent` removes the local cache entry, resets the
editor to the empty document, clears the dirty flag and nulls the
last-confirmed-remote marker; consequently a reload whose remote fetch
returns no draft (remote disabled, failed, or empty) yields an empty
document and no local cache entry. (If a remote draft still exists, the
reload loads it instead — the clear does not touch the remote store.) -/
theorem clearContent_then_reload (s : Session) :
    (clearContent true s).cache = .none ∧
    (clearContent true s).editorDoc = emptyDoc ∧
    (clearContent true s).hasUnsavedChanges = false ∧
    (clearContent true s).lastServerSavedContent = .none ∧
    loadInitialContent (clearContent true s).cache .none =
      { editorDoc := emptyDoc, cache := .none, lastServerSavedContent := .none,
        hasUnsavedChanges := false, isSaving := false } :=
  ⟨rfl, rfl, rfl, rfl, rfl⟩

/-- C8: the local flush validates the serialized editor content; when it
is valid and the storage write succeeds the cache entry is overwritten
unconditionally — for every prior cache value, changed or not, the result
is the fresh record (no change-detection short-circuit); invalid content
or a failing storage write leaves the whole state untouched, and the
function is total (the `try/catch` lets no exception propagate). -/
theorem saveContent_spec (now : Int) (storageOk : Bool) (s : Session) :
    (isValidContent (.some s.editorDoc) = true → storageOk = true →
      saveContent true now storageOk s =
        { s with cache := .some { content := .some s.editorDoc,
                                  lastModified := now, title := .none } }) ∧
    (isValidContent (.some s.editorDoc) = false →
      saveContent true now storageOk s = s) ∧
    (storageOk = false → saveContent true now storageOk s = s) := by
  refine ⟨?_, ?_, ?_⟩
  · intro hv hok
    simp [saveContent, hv, hok, cacheSet]
  · intro hv
    simp [saveContent, hv]
  · intro hok
    by_cases hv : isValidContent (.some s.editorDoc) <;>
      simp [saveContent, hv, hok, cacheSet]

/-- A state whose editor content fails validation. -/
def sInvalid : Session :=
  { editorDoc := badContent, cache := .some lcA, lastServerSavedContent := .none,
    hasUnsavedChanges := true, isSaving := false }

/-- C8, witness: a valid flush overwrites the cache; an invalid one leaves
the state untouched. -/
theorem saveContent_spec_witness :
    saveContent true 7 true sDirty =
      { sDirty with cache := .some { content := .some sDirty.editorDoc,
                                     lastModified := 7, title := .none } } ∧
    saveContent true 7 true sInvalid = sInvalid :=
  ⟨(saveContent_spec 7 true sDirty).1 rfl rfl,
   (saveContent_spec 7 true sInvalid).2.1 rfl⟩

/-- C9: after an update, the deletion callback is invoked exactly on the
image references present in the previous snapshot and absent from the
current document's image set — and on no reference still present — and the
snapshot is replaced by the current set. -/
theorem monitorHandleUpdate_spec (st : MonitorState) (doc : Js) (img : Js) :
    (img ∈ (monitorHandleUpdate st doc).1 ↔
      img ∈ st.previousImages ∧ img ∉ getImagesFromDoc doc) ∧
    (monitorHandleUpdate st doc).2.previousImages = getImagesFromDoc doc := by
  constructor
  · simp [monitorHandleUpdate, List.mem_filter, List.elem_iff]
  · rfl
